import Mathlib

/-!
Shallow embedding of the plotting core of `spinOSplotter.py` (spinOS).

Python floats are embedded as rationals (or a generic linear ordered field where
the source works with the real number `np.pi`); numpy arrays become lists; the
matplotlib calls performed on an axis become explicit plot-primitive values or an
ordered list of axis operations.  Fallible code (Python `min`/`max` raising
`ValueError` on an empty sequence) is embedded by an explicit error step.
-/

namespace SpinOS

/-- Embedding of `np.linspace a b num`: `num` samples evenly spaced over the closed
interval `[a, b]`, both endpoints included (sample `k` is `a + (b - a) * k / (num - 1)`). -/
def linspace {α : Type} [LinearOrderedField α] (a b : α) (num : Nat) : List α :=
  (List.range num).map fun (k : Nat) =>
    a + (b - a) * (k : α) / ((num - 1 : Nat) : α)

/-- One binary component of the external orbital `system` (Model): exposes the scalar
radial-velocity-of-phase function read by the plotting core. -/
structure Component (α : Type) where
  radial_velocity_of_phase : α → α

/-- Vectorized form `radial_velocity_of_phases`: the scalar RV function mapped over a
phase array, as numpy broadcasting does. -/
def Component.radial_velocity_of_phases {α : Type} (c : Component α)
    (phases : List α) : List α :=
  phases.map c.radial_velocity_of_phase

/-- The relative-orbit part of the external `system` (Model): sky-plane projections by
eccentric anomaly, true anomaly and phase, plus the argument of periastron `omega`. -/
structure RelOrbit (α : Type) where
  east_of_ecc : α → α
  north_of_ecc : α → α
  east_of_true : α → α
  north_of_true : α → α
  east_of_ph : α → α
  north_of_ph : α → α
  omega : α

/-- The external `system` (Model) as read by `spinOSplotter.py`. -/
structure SpinSystem (α : Type) where
  primary : Component α
  secondary : Component α
  relative : RelOrbit α

/-- Embeds `plot_rv_curves` (spinOSplotter.py lines 65-77): the data of the two
`ax.plot` calls — the (phase, RV) pair sequences for the primary and the secondary
component, sampled on `np.linspace(-0.15, 1.15, num=200)`.  The function only reads
the system (no side effects on the Model). -/
def plot_rv_curves {α : Type} [LinearOrderedField α] (system : SpinSystem α) :
    List (α × α) × List (α × α) :=
  let num := 200
  let phases := linspace (-(3/20) : α) (23/20) num
  let vrads1 := system.primary.radial_velocity_of_phases phases
  let vrads2 := system.secondary.radial_velocity_of_phases phases
  (phases.zip vrads1, phases.zip vrads2)

/-- The plot primitives produced by `plot_relative_orbit`: the periastron marker, the
orbit trace and the two line-of-nodes endpoints (each an (east, north) point). -/
structure RelOrbitPlot (α : Type) where
  periastron : α × α
  orbit : List (α × α)
  nodes : List (α × α)

/-- Embeds `plot_relative_orbit` (lines 80-98).  The parameter `pi` stands for the
constant `np.pi` (the source works over floating-point reals; the embedding is generic
in the field so that the sampling arithmetic stays exact). -/
def plot_relative_orbit {α : Type} [LinearOrderedField α] (pi : α)
    (system : SpinSystem α) : RelOrbitPlot α :=
  let num := 200
  let ecc_anoms := linspace 0 (2 * pi) num
  let norths := ecc_anoms.map system.relative.north_of_ecc
  let easts := ecc_anoms.map system.relative.east_of_ecc
  { periastron := (system.relative.east_of_ecc 0, system.relative.north_of_ecc 0)
    orbit := easts.zip norths
    nodes := [(system.relative.east_of_true (-system.relative.omega),
               system.relative.north_of_true (-system.relative.omega)),
              (system.relative.east_of_true (-system.relative.omega + pi),
               system.relative.north_of_true (-system.relative.omega + pi))] }

/-- A marker artist as held by `plot_dots`: `id` is the artist's identity (the object
created by `ax.plot`), `x`/`y` its current coordinates (`set_xdata`/`set_ydata`
mutate the coordinates of the same artist). -/
structure Dot (α : Type) where
  id : Nat
  x : α
  y : α

/-- Embeds `plot_dots` (lines 101-121).  A `none` handle corresponds to Python `None`
(unbound): the code creates a fresh artist on the axis (`newId1`/`newId2`/`newId3`
are the identities the two axes would assign) and positions it.  A `some` handle is
repositioned in place: the same artist (same `id`) gets new coordinates.  All three
returned dots are bound. -/
def plot_dots {α : Type} (rv1dot rv2dot asdot : Option (Dot α))
    (newId1 newId2 newId3 : Nat) (phase : α) (system : SpinSystem α) :
    Dot α × Dot α × Dot α :=
  let rv1 := system.primary.radial_velocity_of_phase phase
  let d1 := match rv1dot with
    | none => { id := newId1, x := phase, y := rv1 }
    | some d => { d with x := phase, y := rv1 }
  let rv2 := system.secondary.radial_velocity_of_phase phase
  let d2 := match rv2dot with
    | none => { id := newId2, x := phase, y := rv2 }
    | some d => { d with x := phase, y := rv2 }
  let north := system.relative.north_of_ph phase
  let east := system.relative.east_of_ph phase
  let d3 := match asdot with
    | none => { id := newId3, x := east, y := north }
    | some d => { d with x := east, y := north }
  (d1, d2, d3)

/-- Modelled from the spec: `create_phase_extended_RV` is defined on the external
orbital-system object (`system.create_phase_extended_RV`), whose source is not part
of this repository's plotting module.  Per the spec (PhaseFolder): replicate each
(phase, rv, err) observation at phases `p`, `p - 1` and `p + 1`, and retain only the
replicas falling inside the extended window `[-m, 1 + m]`; rv and uncertainty values
pass through unchanged per replica. -/
def create_phase_extended_RV {α : Type} [LinearOrderedField α]
    (data : List (α × α × α)) (m : α) : List (α × α × α) :=
  data.flatMap fun obs =>
    ([obs.1, obs.1 - 1, obs.1 + 1].filter fun q =>
        decide (-m ≤ q) && decide (q ≤ 1 + m)).map
      fun q => (q, obs.2.1, obs.2.2)

/-- Embeds `plot_rv_data` (lines 124-139): for each datadict entry whose key is `RV1`
or `RV2`, the phase-extended (phase, rv, err) series handed to `errorbar`, produced
by `system.create_phase_extended_RV(datadict[key], 0.15)`; other keys are ignored. -/
def plot_rv_data {α : Type} [LinearOrderedField α]
    (datadict : List (String × List (α × α × α))) : List (List (α × α × α)) :=
  datadict.filterMap fun entry =>
    if entry.1 = "RV1" ∨ entry.1 = "RV2" then
      some (create_phase_extended_RV entry.2 (3/20))
    else none

/-- The astrometric (`AS`) payload: per-observation sequences of east/north offsets,
error-ellipse major/minor semi-axes and position angles (all equal length). -/
structure ASPayload (α : Type) where
  easts : List α
  norths : List α
  majors : List α
  minors : List α
  pas : List α
  deriving DecidableEq

/-- One uncertainty-ellipse primitive as handed to `EllipseCollection`: center offset,
full width, full height and rotation angle in degrees. -/
structure Ellipse (α : Type) where
  center : α × α
  width : α
  height : α
  angle : α
  deriving DecidableEq

/-- Elementwise construction mirroring `EllipseCollection(2 * majors, 2 * minors,
pas - 90, offsets=np.column_stack((easts, norths)), ...)` (line 151-154): one ellipse
per observation epoch, paired up elementwise across the equal-length sequences. -/
def as_ellipses {α : Type} [LinearOrderedField α] :
    List α → List α → List α → List α → List α → List (Ellipse α)
  | e :: es, n :: ns, a :: ma, b :: mi, p :: ps =>
      { center := (e, n), width := 2 * a, height := 2 * b, angle := p - 90 } ::
        as_ellipses es ns ma mi ps
  | _, _, _, _, _ => []

/-- The ways the AS branch of `plot_as_data` can fail: a Python `ValueError` (what
`min()`/`max()` raise on an empty sequence) or an explicit configuration error (the
error class the spec asks for on empty payloads; never raised by this code). -/
inductive PlotError where
  | valueError : PlotError
  | configurationError : PlotError
  deriving DecidableEq

/-- The ordered axis operations performed by the AS branch of `plot_as_data`:
scatter-plot of the data points, adding the ellipse collection, setting the x limits
(left, right), setting the y limits (bottom, top), the final `axis('image')` call,
and raising an error. -/
inductive ASStep (α : Type) where
  | scatter (pts : List (α × α)) : ASStep α
  | addEllipses (ellipses : List (Ellipse α)) : ASStep α
  | setXlim (left right : α) : ASStep α
  | setYlim (bottom top : α) : ASStep α
  | axisImage : ASStep α
  | raised (err : PlotError) : ASStep α
  deriving DecidableEq

/-- Embeds the `AS` branch of `plot_as_data` (lines 148-161) as the ordered sequence
of axis operations it performs.  The code first plots the points and adds the ellipse
collection, then computes `plotmin = min(min(easts), min(norths))` and
`plotmax = max(max(easts), max(norths))` and sets `xlim = [plotmax + 5, plotmin - 5]`
(east increases leftward) and `ylim = [plotmin - 5, plotmax + 5]`.  Python `min`/`max`
on an empty sequence raises `ValueError`; the code does not guard against it. -/
def plot_as_data {α : Type} [LinearOrderedField α] (data : ASPayload α) :
    List (ASStep α) :=
  let pts := data.easts.zip data.norths
  let ellipses := as_ellipses data.easts data.norths data.majors data.minors data.pas
  match data.easts.min?, data.norths.min?, data.easts.max?, data.norths.max? with
  | some me, some mn, some pe, some pn =>
      let plotmin := min me mn
      let plotmax := max pe pn
      [ASStep.scatter pts, ASStep.addEllipses ellipses,
       ASStep.setXlim (plotmax + 5) (plotmin - 5),
       ASStep.setYlim (plotmin - 5) (plotmax + 5), ASStep.axisImage]
  | _, _, _, _ =>
      [ASStep.scatter pts, ASStep.addEllipses ellipses,
       ASStep.raised PlotError.valueError]

/-- One fit parameter of the external `FitResult`: its current value and whether it is
free to vary. -/
structure FitParam where
  value : ℚ
  vary : Bool

/-- The external MCMC `FitResult` as read by `plot_corner_diagram`: the ordered list
of declared parameter names (`var_names`) and the parameter mapping (`params[key]`,
total on the declared names). -/
structure FitResult where
  var_names : List String
  params : String → FitParam

/-- The label branch of the `plot_corner_diagram` loop (lines 166-188): the display
label appended for a recognized parameter name; `none` for an unrecognized name (the
code appends nothing for it). -/
def labelOf (key : String) : Option String :=
  if key = "e" then some "$e$"
  else if key = "i" then some "$i$ (deg)"
  else if key = "omega" then some "$\\omega$ (deg)"
  else if key = "Omega" then some "$\\Omega$ (deg)"
  else if key = "t0" then some "$T_0$ (MJD)"
  else if key = "k1" then some "$K_1$ (km/s)"
  else if key = "k2" then some "$K_2$ (km/s)"
  else if key = "p" then some "$P$ (d)"
  else if key = "gamma1" then some "$\\gamma_1$ (km/s)"
  else if key = "gamma2" then some "$\\gamma_2$ (km/s)"
  else if key = "d" then some "$d$ (pc)"
  else none

/-- The single pass of `plot_corner_diagram` over `var_names` (lines 164-191),
building the `labels` and `thruths` (sic) lists: a recognized name appends its label;
a name whose parameter has `vary` set appends its current value to the truth list. -/
def corner_lists (params : String → FitParam) : List String → List String × List ℚ
  | [] => ([], [])
  | key :: rest =>
      let tl := corner_lists params rest
      ((match labelOf key with | some l => l :: tl.1 | none => tl.1),
       (if (params key).vary then (params key).value :: tl.2 else tl.2))

/-- Embeds `plot_corner_diagram` (lines 163-192): the `labels` and `thruths` lists the
code builds from the fit result and passes to `corner.corner`. -/
def plot_corner_diagram (result : FitResult) : List String × List ℚ :=
  corner_lists result.params result.var_names

/-- The concrete astrometric payload of the spec's end-to-end example:
easts=[1,-1], norths=[2,-2], majors=[0.1,0.1], minors=[0.05,0.05], pas=[10,190]. -/
def asExample : ASPayload ℚ :=
  { easts := [1, -1]
    norths := [2, -2]
    majors := [1/10, 1/10]
    minors := [1/20, 1/20]
    pas := [10, 190] }

/-- A system all of whose model functions are constantly zero, used to instantiate
universal statements at a concrete input. -/
def constSys : SpinSystem ℚ :=
  { primary := { radial_velocity_of_phase := fun _ => 0 }
    secondary := { radial_velocity_of_phase := fun _ => 0 }
    relative :=
      { east_of_ecc := fun _ => 0
        north_of_ecc := fun _ => 0
        east_of_true := fun _ => 0
        north_of_true := fun _ => 0
        east_of_ph := fun _ => 0
        north_of_ph := fun _ => 0
        omega := 0 } }

/-- The labels list built by `corner_lists` is exactly `filterMap labelOf` over the
declared names: one label per recognized name, in declared order, nothing for an
unrecognized name. -/
theorem corner_lists_fst (params : String → FitParam) (keys : List String) :
    (corner_lists params keys).1 = keys.filterMap labelOf := by
  induction keys with
  | nil => rfl
  | cons k rest ih =>
      cases h : labelOf k <;>
        simp [corner_lists, List.filterMap_cons, h, ih]

/-- The truth list built by `corner_lists` is exactly the values of the `vary` names,
in declared order. -/
theorem corner_lists_snd (params : String → FitParam) (keys : List String) :
    (corner_lists params keys).2 =
      keys.filterMap fun k =>
        if (params k).vary then some (params k).value else none := by
  induction keys with
  | nil => rfl
  | cons k rest ih =>
      by_cases h : (params k).vary <;>
        simp [corner_lists, List.filterMap_cons, h, ih]

/-- Counting helper: the length of the vary-filtered value list equals the number of
vary names. -/
theorem length_filterMap_vary (params : String → FitParam) (keys : List String) :
    (keys.filterMap fun k =>
        if (params k).vary then some (params k).value else none).length =
      (keys.filter fun k => (params k).vary).length := by
  induction keys with
  | nil => rfl
  | cons k rest ih =>
      by_cases h : (params k).vary <;>
        simp [List.filterMap_cons, List.filter_cons, h, ih]

/-- C1: on an astrometric payload with zero observations, `plot_as_data` first emits
the scatter and ellipse-collection output and then hits `min()` on an empty sequence,
raising a Python `ValueError`; it never raises the configuration error the spec
requires and does not reject the input before producing output. -/
theorem plot_as_data_empty_payload :
    plot_as_data { easts := ([] : List ℚ), norths := [], majors := [],
                   minors := [], pas := [] } =
      [ASStep.scatter [], ASStep.addEllipses [],
       ASStep.raised PlotError.valueError] ∧
    ASStep.raised (α := ℚ) PlotError.configurationError ∉
      plot_as_data { easts := ([] : List ℚ), norths := [], majors := [],
                     minors := [], pas := [] } := by
  exact ⟨rfl, by decide⟩

/-- C2 counterexample: on a fit result declaring the single (unrecognized) parameter
name "q", the labels list is empty, so its length differs from the number of declared
parameter names — the code skips unrecognized names instead of producing one label
per declared name. -/
theorem plot_corner_diagram_labels_counterexample :
    (plot_corner_diagram
        { var_names := ["q"], params := fun _ => { value := 1, vary := true } }).1.length ≠
      (["q"] : List String).length := by
  decide

/-- C2 amended: `plot_corner_diagram` produces exactly one display label per
*recognized* parameter name, in the result's declared parameter order (the labels
list is `filterMap labelOf` over `var_names`); an unrecognized name is skipped — it
contributes no label — without failure. -/
theorem plot_corner_diagram_labels (result : FitResult) :
    (plot_corner_diagram result).1 = result.var_names.filterMap labelOf :=
  corner_lists_fst result.params result.var_names

/-- C5: the truth list produced by `plot_corner_diagram` consists exactly of the
current values of the parameters marked `vary`, in declared relative order, and its
length equals the count of `vary` parameters; entries originate only from `vary`
parameters, never from fixed ones. -/
theorem plot_corner_diagram_thruths (result : FitResult) :
    (plot_corner_diagram result).2 =
      result.var_names.filterMap
        (fun k => if (result.params k).vary then some (result.params k).value
                  else none) ∧
    (plot_corner_diagram result).2.length =
      (result.var_names.filter fun k => (result.params k).vary).length := by
  refine ⟨corner_lists_snd result.params result.var_names, ?_⟩
  rw [plot_corner_diagram, corner_lists_snd]
  exact length_filterMap_vary result.params result.var_names

/-- C3 counterexample: on the spec's example payload the code emits axis bounds
lo = -7, hi = 7 (its margin is the hard-coded constant 5, and no margin-2 mode
exists), so no axis-limit step with bounds -4 and 4 is produced. -/
theorem plot_as_data_example_counterexample :
    ASStep.setYlim (-4 : ℚ) 4 ∉ plot_as_data asExample ∧
    ASStep.setXlim (4 : ℚ) (-4) ∉ plot_as_data asExample := by
  norm_num [plot_as_data, asExample, as_ellipses, min_def, max_def]
  refine ⟨⟨?_, ?_, ?_, ?_⟩, ?_, ?_, ?_, ?_⟩ <;> · intro h; injection h

/-- C3 amended: on the payload easts=[1,-1], norths=[2,-2], majors=[0.1,0.1],
minors=[0.05,0.05], pas=[10,190], `plot_as_data` (whose margin is the fixed constant
5, not a parameter) produces axis bounds lo = -7 and hi = 7 on both axes (x limits
(7, -7), y limits (-7, 7)) and two ellipse descriptors with rotations -80 and 100
degrees respectively. -/
theorem plot_as_data_example :
    plot_as_data asExample =
      ([ASStep.scatter [(1, 2), (-1, -2)],
        ASStep.addEllipses
          [{ center := (1, 2), width := 1/5, height := 1/10, angle := -80 },
           { center := (-1, -2), width := 1/5, height := 1/10, angle := 100 }],
        ASStep.setXlim 7 (-7), ASStep.setYlim (-7) 7, ASStep.axisImage] :
        List (ASStep ℚ)) := by
  norm_num [plot_as_data, asExample, as_ellipses, min_def, max_def]

/-- The ellipse-collection step is emitted by `plot_as_data` on every payload,
whether or not the axis-bound computation crashes afterwards. -/
theorem addEllipses_mem_plot_as_data (data : ASPayload ℚ) :
    ASStep.addEllipses
        (as_ellipses data.easts data.norths data.majors data.minors data.pas) ∈
      plot_as_data data := by
  simp only [plot_as_data]
  rcases data.easts.min? with _ | me <;> rcases data.norths.min? with _ | mn <;>
    rcases data.easts.max? with _ | pe <;> rcases data.norths.max? with _ | pn <;>
      simp

/-- C4: on a payload where both coordinate sequences are non-empty (their min and max
exist), the emitted bounds are lo = (min over the union of all easts and norths)
minus the margin and hi = (max over that union) plus the margin, the code's margin
being the constant 5; hence lo bounds the data from below and hi from above, the
east axis is set with hi on the left and lo on the right, and the north axis with lo
at the bottom and hi at the top. -/
theorem plot_as_data_bounds (data : ASPayload ℚ) (me mn pe pn : ℚ)
    (h1 : data.easts.min? = some me) (h2 : data.norths.min? = some mn)
    (h3 : data.easts.max? = some pe) (h4 : data.norths.max? = some pn) :
    (data.easts ++ data.norths).min? = some (min me mn) ∧
    (data.easts ++ data.norths).max? = some (max pe pn) ∧
    ASStep.setXlim (max pe pn + 5) (min me mn - 5) ∈ plot_as_data data ∧
    ASStep.setYlim (min me mn - 5) (max pe pn + 5) ∈ plot_as_data data ∧
    ∀ x ∈ data.easts ++ data.norths,
      min me mn - 5 ≤ x ∧ x ≤ max pe pn + 5 := by
  haveI : Std.Antisymm ((· : ℚ) ≤ ·) := ⟨fun hab hba => le_antisymm hab hba⟩
  have e1 := (List.min?_eq_some_iff le_refl min_choice
    (fun a b c => le_min_iff)).mp h1
  have e2 := (List.min?_eq_some_iff le_refl min_choice
    (fun a b c => le_min_iff)).mp h2
  have e3 := (List.max?_eq_some_iff le_refl max_choice
    (fun a b c => max_le_iff)).mp h3
  have e4 := (List.max?_eq_some_iff le_refl max_choice
    (fun a b c => max_le_iff)).mp h4
  have htrace : plot_as_data data =
      [ASStep.scatter (data.easts.zip data.norths),
       ASStep.addEllipses
         (as_ellipses data.easts data.norths data.majors data.minors data.pas),
       ASStep.setXlim (max pe pn + 5) (min me mn - 5),
       ASStep.setYlim (min me mn - 5) (max pe pn + 5), ASStep.axisImage] := by
    simp only [plot_as_data, h1, h2, h3, h4]
  have hbelow : ∀ x ∈ data.easts ++ data.norths, min me mn ≤ x := by
    intro x hx
    rcases List.mem_append.mp hx with hx | hx
    · exact le_trans (min_le_left me mn) (e1.2 x hx)
    · exact le_trans (min_le_right me mn) (e2.2 x hx)
  have habove : ∀ x ∈ data.easts ++ data.norths, x ≤ max pe pn := by
    intro x hx
    rcases List.mem_append.mp hx with hx | hx
    · exact le_trans (e3.2 x hx) (le_max_left pe pn)
    · exact le_trans (e4.2 x hx) (le_max_right pe pn)
  refine ⟨?_, ?_, ?_, ?_, ?_⟩
  · rw [List.min?_eq_some_iff le_refl min_choice (fun a b c => le_min_iff)]
    refine ⟨?_, hbelow⟩
    rcases min_choice me mn with h | h <;> rw [h]
    · exact List.mem_append_left _ e1.1
    · exact List.mem_append_right _ e2.1
  · rw [List.max?_eq_some_iff le_refl max_choice (fun a b c => max_le_iff)]
    refine ⟨?_, habove⟩
    rcases max_choice pe pn with h | h <;> rw [h]
    · exact List.mem_append_left _ e3.1
    · exact List.mem_append_right _ e4.1
  · rw [htrace]; simp
  · rw [htrace]; simp
  · intro x hx
    constructor
    · linarith [hbelow x hx]
    · linarith [habove x hx]

/-- Witness instantiating the C4 axis-bounds theorem on the spec's example payload. -/
theorem plot_as_data_bounds_witness :
    (asExample.easts.min? = some (-1) ∧ asExample.norths.min? = some (-2) ∧
     asExample.easts.max? = some 1 ∧ asExample.norths.max? = some 2) ∧
    ((asExample.easts ++ asExample.norths).min? = some (min (-1) (-2)) ∧
     (asExample.easts ++ asExample.norths).max? = some (max 1 2) ∧
     ASStep.setXlim (max 1 2 + 5) (min (-1) (-2) - 5) ∈ plot_as_data asExample ∧
     ASStep.setYlim (min (-1) (-2) - 5) (max 1 2 + 5) ∈ plot_as_data asExample ∧
     ∀ x ∈ asExample.easts ++ asExample.norths,
       min (-1) (-2) - 5 ≤ x ∧ x ≤ max 1 2 + 5) := by
  have hm1 : asExample.easts.min? = some (-1) := by
    norm_num [asExample, min_def]
  have hm2 : asExample.norths.min? = some (-2) := by
    norm_num [asExample, min_def]
  have hm3 : asExample.easts.max? = some 1 := by
    norm_num [asExample, max_def]
  have hm4 : asExample.norths.max? = some 2 := by
    norm_num [asExample, max_def]
  exact ⟨⟨hm1, hm2, hm3, hm4⟩,
    plot_as_data_bounds asExample (-1) (-2) 1 2 hm1 hm2 hm3 hm4⟩

/-- Elementwise characterization of `as_ellipses`: the i-th ellipse is built from the
i-th entry of each sequence with center (east, north), width 2·major, height 2·minor
and angle pa − 90. -/
theorem as_ellipses_getElem? :
    ∀ (es ns ma mi ps : List ℚ) (i : Nat) (e n a b p : ℚ),
      es[i]? = some e → ns[i]? = some n → ma[i]? = some a → mi[i]? = some b →
      ps[i]? = some p →
      (as_ellipses es ns ma mi ps)[i]? =
        some { center := (e, n), width := 2 * a, height := 2 * b,
               angle := p - 90 } := by
  intro es
  induction es with
  | nil => intro ns ma mi ps i e n a b p he; simp at he
  | cons e0 es ih =>
      intro ns ma mi ps i e n a b p he hn ha hb hp
      rcases ns with _ | ⟨n0, ns⟩
      · simp at hn
      rcases ma with _ | ⟨a0, ma⟩
      · simp at ha
      rcases mi with _ | ⟨b0, mi⟩
      · simp at hb
      rcases ps with _ | ⟨p0, ps⟩
      · simp at hp
      cases i with
      | zero =>
          simp only [List.getElem?_cons_zero, Option.some.injEq] at he hn ha hb hp
          subst he; subst hn; subst ha; subst hb; subst hp
          simp [as_ellipses]
      | succ i =>
          simp only [List.getElem?_cons_succ] at he hn ha hb hp
          simpa [as_ellipses] using ih ns ma mi ps i e n a b p he hn ha hb hp

/-- Length of `as_ellipses` on equal-length sequences: one ellipse per observation
epoch. -/
theorem as_ellipses_length :
    ∀ (es ns ma mi ps : List ℚ),
      ns.length = es.length → ma.length = es.length → mi.length = es.length →
      ps.length = es.length →
      (as_ellipses es ns ma mi ps).length = es.length := by
  intro es
  induction es with
  | nil =>
      intro ns ma mi ps hn ha hb hp
      rcases ns with _ | _
      · simp [as_ellipses]
      · simp at hn
  | cons e0 es ih =>
      intro ns ma mi ps hn ha hb hp
      rcases ns with _ | ⟨n0, ns⟩
      · simp at hn
      rcases ma with _ | ⟨a0, ma⟩
      · simp at ha
      rcases mi with _ | ⟨b0, mi⟩
      · simp at hb
      rcases ps with _ | ⟨p0, ps⟩
      · simp at hp
      simp only [List.length_cons, Nat.succ.injEq] at hn ha hb hp
      simp [as_ellipses, ih ns ma mi ps hn ha hb hp]

/-- C9: each uncertainty-ellipse primitive handed to the ellipse collection by
`plot_as_data` has center (east, north), full width 2·major, full height 2·minor and
rotation pa − 90 degrees, with one primitive per observation epoch; the collection is
part of the emitted output. -/
theorem plot_as_data_ellipses (data : ASPayload ℚ) (i : Nat) (e n a b p : ℚ)
    (hl1 : data.norths.length = data.easts.length)
    (hl2 : data.majors.length = data.easts.length)
    (hl3 : data.minors.length = data.easts.length)
    (hl4 : data.pas.length = data.easts.length)
    (he : data.easts[i]? = some e) (hn : data.norths[i]? = some n)
    (ha : data.majors[i]? = some a) (hb : data.minors[i]? = some b)
    (hp : data.pas[i]? = some p) :
    (as_ellipses data.easts data.norths data.majors data.minors data.pas).length =
      data.easts.length ∧
    (as_ellipses data.easts data.norths data.majors data.minors data.pas)[i]? =
      some { center := (e, n), width := 2 * a, height := 2 * b,
             angle := p - 90 } ∧
    ASStep.addEllipses
        (as_ellipses data.easts data.norths data.majors data.minors data.pas) ∈
      plot_as_data data :=
  ⟨as_ellipses_length data.easts data.norths data.majors data.minors data.pas
      hl1 hl2 hl3 hl4,
   as_ellipses_getElem? data.easts data.norths data.majors data.minors data.pas
      i e n a b p he hn ha hb hp,
   addEllipses_mem_plot_as_data data⟩

/-- Witness instantiating the C9 ellipse-geometry theorem on the spec's example
payload at observation index 0. -/
theorem plot_as_data_ellipses_witness :
    (asExample.norths.length = asExample.easts.length ∧
     asExample.majors.length = asExample.easts.length ∧
     asExample.minors.length = asExample.easts.length ∧
     asExample.pas.length = asExample.easts.length ∧
     asExample.easts[0]? = some 1 ∧ asExample.norths[0]? = some 2 ∧
     asExample.majors[0]? = some (1/10) ∧ asExample.minors[0]? = some (1/20) ∧
     asExample.pas[0]? = some 10) ∧
    ((as_ellipses asExample.easts asExample.norths asExample.majors
        asExample.minors asExample.pas).length = asExample.easts.length ∧
     (as_ellipses asExample.easts asExample.norths asExample.majors
        asExample.minors asExample.pas)[0]? =
       some { center := (1, 2), width := 2 * (1/10), height := 2 * (1/20),
              angle := 10 - 90 } ∧
     ASStep.addEllipses
         (as_ellipses asExample.easts asExample.norths asExample.majors
           asExample.minors asExample.pas) ∈
       plot_as_data asExample) :=
  ⟨⟨rfl, rfl, rfl, rfl, rfl, rfl, rfl, rfl, rfl⟩,
   plot_as_data_ellipses asExample 0 1 2 (1/10) (1/20) 10
     rfl rfl rfl rfl rfl rfl rfl rfl rfl⟩

/-- C6: `plot_dots` binds every handle: an unbound (`none`) handle comes back as a
freshly created artist (the identity the axis allocates) at the new position, a bound
handle comes back with the same identity — the artist is repositioned in place, never
recreated and never unbound — and all three returned markers carry the model's values
for the one phase value of the call (RV1 and RV2 at that phase, and the sky position
(east, north) at that same phase). -/
theorem plot_dots_spec {α : Type} (rv1dot rv2dot asdot : Option (Dot α))
    (newId1 newId2 newId3 : Nat) (phase : α) (system : SpinSystem α) :
    (plot_dots rv1dot rv2dot asdot newId1 newId2 newId3 phase system).1.id =
      rv1dot.elim newId1 Dot.id ∧
    (plot_dots rv1dot rv2dot asdot newId1 newId2 newId3 phase system).1.x =
      phase ∧
    (plot_dots rv1dot rv2dot asdot newId1 newId2 newId3 phase system).1.y =
      system.primary.radial_velocity_of_phase phase ∧
    (plot_dots rv1dot rv2dot asdot newId1 newId2 newId3 phase system).2.1.id =
      rv2dot.elim newId2 Dot.id ∧
    (plot_dots rv1dot rv2dot asdot newId1 newId2 newId3 phase system).2.1.x =
      phase ∧
    (plot_dots rv1dot rv2dot asdot newId1 newId2 newId3 phase system).2.1.y =
      system.secondary.radial_velocity_of_phase phase ∧
    (plot_dots rv1dot rv2dot asdot newId1 newId2 newId3 phase system).2.2.id =
      asdot.elim newId3 Dot.id ∧
    (plot_dots rv1dot rv2dot asdot newId1 newId2 newId3 phase system).2.2.x =
      system.relative.east_of_ph phase ∧
    (plot_dots rv1dot rv2dot asdot newId1 newId2 newId3 phase system).2.2.y =
      system.relative.north_of_ph phase := by
  rcases rv1dot with _ | d1 <;> rcases rv2dot with _ | d2 <;>
    rcases asdot with _ | d3 <;> simp [plot_dots, Option.elim]

/-- Length of `linspace`: exactly `num` samples. -/
theorem linspace_length {α : Type} [LinearOrderedField α] (a b : α) (num : Nat) :
    (linspace a b num).length = num := by
  simp only [linspace, List.length_map, List.length_range]

/-- Index characterization of `linspace`: sample `k` (for `k < num`) is
`a + (b - a) * k / (num - 1)`. -/
theorem linspace_getElem? {α : Type} [LinearOrderedField α] (a b : α)
    (num k : Nat) (hk : k < num) :
    (linspace a b num)[k]? =
      some (a + (b - a) * (k : α) / ((num - 1 : Nat) : α)) := by
  simp only [linspace, List.getElem?_map, List.getElem?_range hk,
    Option.map_some']

/-- Index characterization of zipping two mapped copies of the same list. -/
theorem zip_map_map_getElem? {α β : Type} (f g : α → β) (l : List α) :
    ∀ (k : Nat) (x : α), l[k]? = some x →
      ((l.map f).zip (l.map g))[k]? = some (f x, g x) := by
  induction l with
  | nil => intro k x h; simp at h
  | cons y ys ih =>
      intro k x h
      cases k with
      | zero =>
          simp only [List.getElem?_cons_zero, Option.some.injEq] at h
          subst h
          simp
      | succ k =>
          simp only [List.getElem?_cons_succ] at h
          simpa using ih k x h

/-- Index characterization of zipping a list with a mapped copy of itself. -/
theorem zip_self_map_getElem? {α β : Type} (f : α → β) (l : List α) :
    ∀ (k : Nat) (x : α), l[k]? = some x →
      (l.zip (l.map f))[k]? = some (x, f x) := by
  induction l with
  | nil => intro k x h; simp at h
  | cons y ys ih =>
      intro k x h
      cases k with
      | zero =>
          simp only [List.getElem?_cons_zero, Option.some.injEq] at h
          subst h
          simp
      | succ k =>
          simp only [List.getElem?_cons_succ] at h
          simpa using ih k x h

/-- C7: the relative-orbit trace of `plot_relative_orbit` has exactly 200 (east,
north) points; point k is the projection at eccentric anomaly (2π − 0)·k/199, the
200 evenly spaced samples over the closed interval [0, 2π] — sample 0 is 0 and
sample 199 is 2π, both endpoints included; consequently, whenever the projection
functions are 2π-periodic, the first and last points of the trace coincide (the
trace is closed). -/
theorem plot_relative_orbit_closed {α : Type} [LinearOrderedField α] (pi : α)
    (system : SpinSystem α)
    (hE : ∀ x, system.relative.east_of_ecc (x + 2 * pi) =
      system.relative.east_of_ecc x)
    (hN : ∀ x, system.relative.north_of_ecc (x + 2 * pi) =
      system.relative.north_of_ecc x) :
    (plot_relative_orbit pi system).orbit.length = 200 ∧
    (∀ k : Nat, k < 200 →
      (plot_relative_orbit pi system).orbit[k]? =
        some (system.relative.east_of_ecc (0 + (2 * pi - 0) * (k : α) / 199),
              system.relative.north_of_ecc (0 + (2 * pi - 0) * (k : α) / 199))) ∧
    (linspace (0 : α) (2 * pi) 200)[0]? = some 0 ∧
    (linspace (0 : α) (2 * pi) 200)[199]? = some (2 * pi) ∧
    (plot_relative_orbit pi system).orbit[0]? =
      (plot_relative_orbit pi system).orbit[199]? := by
  have h199 : ((200 - 1 : Nat) : α) = (199 : α) := by norm_num
  have horb : (plot_relative_orbit pi system).orbit =
      ((linspace (0 : α) (2 * pi) 200).map system.relative.east_of_ecc).zip
        ((linspace (0 : α) (2 * pi) 200).map system.relative.north_of_ecc) := rfl
  have h0 : (linspace (0 : α) (2 * pi) 200)[0]? = some 0 := by
    have h := linspace_getElem? (0 : α) (2 * pi) 200 0 (by norm_num)
    simpa using h
  have hlast : (linspace (0 : α) (2 * pi) 200)[199]? = some (2 * pi) := by
    have h := linspace_getElem? (0 : α) (2 * pi) 200 199 (by norm_num)
    rw [h, h199]
    have h199' : (199 : α) ≠ 0 := by norm_num
    congr 1
    field_simp
  refine ⟨?_, ?_, h0, hlast, ?_⟩
  · rw [horb]
    simp [linspace_length]
  · intro k hk
    have h := linspace_getElem? (0 : α) (2 * pi) 200 k hk
    rw [h199] at h
    rw [horb]
    exact zip_map_map_getElem? _ _ _ k _ h
  · have hv0 : (plot_relative_orbit pi system).orbit[0]? =
        some (system.relative.east_of_ecc 0, system.relative.north_of_ecc 0) := by
      rw [horb]
      exact zip_map_map_getElem? _ _ _ 0 0 h0
    have hv199 : (plot_relative_orbit pi system).orbit[199]? =
        some (system.relative.east_of_ecc (2 * pi),
              system.relative.north_of_ecc (2 * pi)) := by
      rw [horb]
      exact zip_map_map_getElem? _ _ _ 199 (2 * pi) hlast
    have eE : system.relative.east_of_ecc (2 * pi) =
        system.relative.east_of_ecc 0 := by
      have h := hE 0
      rwa [zero_add] at h
    have eN : system.relative.north_of_ecc (2 * pi) =
        system.relative.north_of_ecc 0 := by
      have h := hN 0
      rwa [zero_add] at h
    rw [hv0, hv199, eE, eN]

/-- Witness instantiating the C7 closed-trace theorem on a constant (hence periodic)
model, with the angle parameter set to a concrete rational. -/
theorem plot_relative_orbit_closed_witness :
    (∀ x : ℚ, constSys.relative.east_of_ecc (x + 2 * 3) =
      constSys.relative.east_of_ecc x) ∧
    (∀ x : ℚ, constSys.relative.north_of_ecc (x + 2 * 3) =
      constSys.relative.north_of_ecc x) ∧
    ((plot_relative_orbit 3 constSys).orbit.length = 200 ∧
     (∀ k : Nat, k < 200 →
       (plot_relative_orbit 3 constSys).orbit[k]? =
         some (constSys.relative.east_of_ecc (0 + (2 * 3 - 0) * (k : ℚ) / 199),
               constSys.relative.north_of_ecc (0 + (2 * 3 - 0) * (k : ℚ) / 199))) ∧
     (linspace (0 : ℚ) (2 * 3) 200)[0]? = some 0 ∧
     (linspace (0 : ℚ) (2 * 3) 200)[199]? = some (2 * 3) ∧
     (plot_relative_orbit 3 constSys).orbit[0]? =
       (plot_relative_orbit 3 constSys).orbit[199]?) :=
  ⟨fun _ => rfl, fun _ => rfl,
   plot_relative_orbit_closed 3 constSys (fun _ => rfl) (fun _ => rfl)⟩

/-- C8: `plot_rv_curves` produces two (phase, RV) sequences of length 200 each; the
phase grid is the 200 evenly spaced values over the closed interval [-0.15, 1.15]
(entry k is -3/20 + (13/10)·k/199; the first sample is -0.15 and the last 1.15), and
entry k of each curve pairs that phase with the respective component's radial
velocity at that phase — the vectorized RV function applied to the grid.  The
function only reads the system. -/
theorem plot_rv_curves_spec {α : Type} [LinearOrderedField α]
    (system : SpinSystem α) (k : Nat) (hk : k < 200) :
    (plot_rv_curves system).1.length = 200 ∧
    (plot_rv_curves system).2.length = 200 ∧
    (linspace (-(3/20) : α) (23/20) 200)[0]? = some (-(3/20) : α) ∧
    (linspace (-(3/20) : α) (23/20) 200)[199]? = some (23/20 : α) ∧
    (plot_rv_curves system).1[k]? =
      some (-(3/20) + (13/10) * (k : α) / 199,
        system.primary.radial_velocity_of_phase
          (-(3/20) + (13/10) * (k : α) / 199)) ∧
    (plot_rv_curves system).2[k]? =
      some (-(3/20) + (13/10) * (k : α) / 199,
        system.secondary.radial_velocity_of_phase
          (-(3/20) + (13/10) * (k : α) / 199)) := by
  have hc1 : (plot_rv_curves system).1 =
      (linspace (-(3/20) : α) (23/20) 200).zip
        ((linspace (-(3/20) : α) (23/20) 200).map
          system.primary.radial_velocity_of_phase) := rfl
  have hc2 : (plot_rv_curves system).2 =
      (linspace (-(3/20) : α) (23/20) 200).zip
        ((linspace (-(3/20) : α) (23/20) 200).map
          system.secondary.radial_velocity_of_phase) := rfl
  have hphase : (linspace (-(3/20) : α) (23/20) 200)[k]? =
      some (-(3/20) + (13/10) * (k : α) / 199) := by
    rw [linspace_getElem? (-(3/20) : α) (23/20) 200 k hk]
    congr 1
    push_cast
    ring
  refine ⟨?_, ?_, ?_, ?_, ?_, ?_⟩
  · rw [hc1]; simp [linspace_length]
  · rw [hc2]; simp [linspace_length]
  · have h := linspace_getElem? (-(3/20) : α) (23/20) 200 0 (by norm_num)
    rw [h]
    norm_num
  · have h := linspace_getElem? (-(3/20) : α) (23/20) 200 199 (by norm_num)
    rw [h]
    norm_num
  · rw [hc1]
    exact zip_self_map_getElem? _ _ k _ hphase
  · rw [hc2]
    exact zip_self_map_getElem? _ _ k _ hphase

/-- Witness instantiating the C8 curve-sampling theorem on a concrete system at
sample index 0. -/
theorem plot_rv_curves_spec_witness :
    0 < 200 ∧
    ((plot_rv_curves constSys).1.length = 200 ∧
     (plot_rv_curves constSys).2.length = 200 ∧
     (linspace (-(3/20) : ℚ) (23/20) 200)[0]? = some (-(3/20) : ℚ) ∧
     (linspace (-(3/20) : ℚ) (23/20) 200)[199]? = some (23/20 : ℚ) ∧
     (plot_rv_curves constSys).1[0]? =
       some (-(3/20) + (13/10) * ((0 : Nat) : ℚ) / 199,
         constSys.primary.radial_velocity_of_phase
           (-(3/20) + (13/10) * ((0 : Nat) : ℚ) / 199)) ∧
     (plot_rv_curves constSys).2[0]? =
       some (-(3/20) + (13/10) * ((0 : Nat) : ℚ) / 199,
         constSys.secondary.radial_velocity_of_phase
           (-(3/20) + (13/10) * ((0 : Nat) : ℚ) / 199))) :=
  ⟨by norm_num, plot_rv_curves_spec constSys 0 (by norm_num)⟩

/-- C10: `plot_rv_data` hands an RV1/RV2 payload to the phase extension with margin
m = 0.15; on input phases in [0, 1) every output phase lies in [-0.15, 1.15], every
input observation appears (unchanged) at least once in the output, and every output
replica carries the rv and uncertainty of some input observation unchanged, at a
phase equal to that observation's phase or that phase shifted by ±1. -/
theorem plot_rv_data_phase_fold (key : String) (data : List (ℚ × ℚ × ℚ))
    (hkey : key = "RV1" ∨ key = "RV2")
    (hin : ∀ t ∈ data, 0 ≤ t.1 ∧ t.1 < 1) :
    plot_rv_data [(key, data)] = [create_phase_extended_RV data (3/20)] ∧
    (∀ t ∈ create_phase_extended_RV data (3/20),
      -(3/20) ≤ t.1 ∧ t.1 ≤ 1 + 3/20) ∧
    (∀ t ∈ data, t ∈ create_phase_extended_RV data (3/20)) ∧
    (∀ t ∈ create_phase_extended_RV data (3/20),
      ∃ s ∈ data, t.2 = s.2 ∧
        (t.1 = s.1 ∨ t.1 = s.1 - 1 ∨ t.1 = s.1 + 1)) := by
  refine ⟨?_, ?_, ?_, ?_⟩
  · rcases hkey with h | h <;> subst h <;>
      simp [plot_rv_data, List.filterMap_cons]
  · intro t ht
    rw [create_phase_extended_RV, List.mem_flatMap] at ht
    obtain ⟨obs, _, ht⟩ := ht
    rw [List.mem_map] at ht
    obtain ⟨q, hq, rfl⟩ := ht
    rw [List.mem_filter] at hq
    have hcond := hq.2
    simp only [Bool.and_eq_true, decide_eq_true_eq] at hcond
    exact hcond
  · intro t ht
    rw [create_phase_extended_RV, List.mem_flatMap]
    refine ⟨t, ht, ?_⟩
    rw [List.mem_map]
    refine ⟨t.1, ?_, ?_⟩
    · rw [List.mem_filter]
      have hb := hin t ht
      constructor
      · simp
      · simp only [Bool.and_eq_true, decide_eq_true_eq]
        constructor
        · linarith [hb.1]
        · linarith [hb.2]
    · exact Prod.ext rfl (Prod.ext rfl rfl)
  · intro t ht
    rw [create_phase_extended_RV, List.mem_flatMap] at ht
    obtain ⟨obs, hobs, ht⟩ := ht
    rw [List.mem_map] at ht
    obtain ⟨q, hq, rfl⟩ := ht
    rw [List.mem_filter] at hq
    refine ⟨obs, hobs, rfl, ?_⟩
    have hmem := hq.1
    simpa using hmem

/-- Witness instantiating the C10 phase-folding theorem on a concrete single-point
RV1 payload. -/
theorem plot_rv_data_phase_fold_witness :
    (("RV1" : String) = "RV1" ∨ ("RV1" : String) = "RV2") ∧
    (∀ t ∈ ([(1/2, 3, 7/10)] : List (ℚ × ℚ × ℚ)), 0 ≤ t.1 ∧ t.1 < 1) ∧
    (plot_rv_data [("RV1", [((1:ℚ)/2, 3, 7/10)])] =
      [create_phase_extended_RV [((1:ℚ)/2, 3, 7/10)] (3/20)] ∧
     (∀ t ∈ create_phase_extended_RV [((1:ℚ)/2, 3, 7/10)] (3/20),
       -(3/20) ≤ t.1 ∧ t.1 ≤ 1 + 3/20) ∧
     (∀ t ∈ ([(1/2, 3, 7/10)] : List (ℚ × ℚ × ℚ)),
       t ∈ create_phase_extended_RV [((1:ℚ)/2, 3, 7/10)] (3/20)) ∧
     (∀ t ∈ create_phase_extended_RV [((1:ℚ)/2, 3, 7/10)] (3/20),
       ∃ s ∈ ([(1/2, 3, 7/10)] : List (ℚ × ℚ × ℚ)), t.2 = s.2 ∧
         (t.1 = s.1 ∨ t.1 = s.1 - 1 ∨ t.1 = s.1 + 1))) := by
  have hin : ∀ t ∈ ([(1/2, 3, 7/10)] : List (ℚ × ℚ × ℚ)), 0 ≤ t.1 ∧ t.1 < 1 := by
    intro t ht
    rw [List.mem_singleton] at ht
    subst ht
    norm_num
  exact ⟨Or.inl rfl, hin,
    plot_rv_data_phase_fold "RV1" [((1:ℚ)/2, 3, 7/10)] (Or.inl rfl) hin⟩

end SpinOS
